import Mathlib

/-
Shallow embedding of ReactEventListener.js, the top-level native-event
delegation and dispatch engine of this repository.

Conventions of the embedding:
  * JavaScript arrays are Lean lists; a JS array read out of range yields
    `undefined`, modelled by `Option.none`; a JS indexed assignment past the
    end appends (with `none` holes in between).
  * Physical DOM nodes and logical component-tree instances are opaque and
    identified by natural numbers.  JS `null`/`undefined` object references
    are `Option.none`.
  * The while/do-while loops of the source are given explicit fuel; a
    function returns `Option.none` when the fuel runs out, and the theorems
    either quantify over sufficient fuel or evaluate at concrete fuel.
  * External collaborators whose code is not part of this repository
    (component-tree queries, PooledClass, ReactUpdates.batchedUpdates,
    EventListener, getEventTarget) are modelled from the spec at their
    boundary, as documented on each definition.
-/

namespace REL

/-- Modelled from the spec: the external component-tree/reconciler and DOM
collaborators consumed by the listener (spec section 6) —
`ReactDOMComponentTree.getClosestInstanceFromNode`,
`ReactDOMComponentTree.getNodeFromInstance`, the `_hostParent` relation on
instances and the `parentNode` relation on physical nodes. -/
structure DomEnv where
  hostParent : Nat → Option Nat
  nodeFromInstance : Nat → Nat
  parentNode : Nat → Option Nat
  closestInstance : Nat → Option Nat

/-- A native DOM event as this module consumes it: a physical target node
and an optional related target node (enter/leave-style events). -/
structure NativeEvent where
  target : Nat
  relatedTarget : Option Nat
deriving DecidableEq

/-- Modelled from the spec: the external `getEventTarget` utility resolves
the native event's physical target node. -/
def getEventTarget (e : NativeEvent) : Nat :=
  e.target

/-- JS array read at a (possibly negative or overflowing) index: out of
range yields `undefined` (`none`).  Entry type `Nat` (never-undefined
entries such as root nodes). -/
def jsIdx (l : List Nat) (i : Int) : Option Nat :=
  if h : 0 ≤ i ∧ i.toNat < l.length then some (l.get ⟨i.toNat, h.2⟩) else none

/-- JS array read for arrays whose entries may themselves be `undefined`:
an out-of-range read and an `undefined` entry are indistinguishable. -/
def jsIdxD {α : Type} (l : List (Option α)) (i : Int) : Option α :=
  if h : 0 ≤ i ∧ i.toNat < l.length then l.get ⟨i.toNat, h.2⟩ else none

/-- JS indexed array assignment: in-range writes update the slot, a write at
or past the length extends the array (with `undefined` holes). -/
def jsSet {α : Type} (l : List (Option α)) (i : Nat) (v : Option α) : List (Option α) :=
  if i < l.length then l.set i v
  else l ++ List.replicate (i - l.length) none ++ [v]

/-- The inner `while (ancestor._hostParent)` loop of `_collectAncestors`
(source lines 73-75): walk the host-parent chain up to the outermost
instance of the current logical tree.  `none` means the fuel ran out while
a host parent remained. -/
def walkUp (env : DomEnv) : Nat → Nat → Option Nat
  | 0, i =>
    match env.hostParent i with
    | some _ => none
    | none => some i
  | f + 1, i =>
    match env.hostParent i with
    | some p => walkUp env f p
    | none => some i

/-- The outer do-while loop of `_collectAncestors` (source lines 71-80):
push the current instance, walk to the outermost instance of its tree,
record that tree's root container, and continue with the closest owning
instance of the container's physical parent, until none is found. -/
def collectLoop (env : DomEnv) : Nat → List (Option Nat) → List Nat → Nat →
    Option (List (Option Nat) × List Nat)
  | 0, _anc, _roots, _cur => none
  | f + 1, anc, roots, cur =>
    let anc1 := anc ++ [some cur]
    match walkUp env f cur with
    | none => none
    | some top =>
      let rootNode := env.nodeFromInstance top
      let roots1 := roots ++ [rootNode]
      match (env.parentNode rootNode).bind env.closestInstance with
      | some nxt => collectLoop env f anc1 roots1 nxt
      | none => some (anc1, roots1)

/-- `_collectAncestors(ancestors, roots, targetInst)` (source lines 63-81):
no-op when the starting instance is absent, otherwise run the collection
loop appending to the two given lists. -/
def collectAncestors (env : DomEnv) (fuel : Nat) (anc : List (Option Nat))
    (roots : List Nat) (targetInst : Option Nat) :
    Option (List (Option Nat) × List Nat) :=
  match targetInst with
  | none => some (anc, roots)
  | some t => collectLoop env fuel anc roots t

/-- Modelled from the spec: `DOMEventMetadata.getPooled(b)` through the
external PooledClass one-argument pool (spec section 3, Pool).  A metadata
object is represented by its `isRelatedTarget` field (`none` after its
destructor nulled it).  Acquire pops a free object when one exists,
otherwise constructs a fresh one; either way the constructor sets the
field, so the first component is always `some b`. -/
def metaAcquire (pool : List (Option Bool)) (b : Bool) :
    Option Bool × List (Option Bool) :=
  match pool with
  | [] => (some b, [])
  | _ :: rest => (some b, rest)

/-- The metadata fill loop of `handleTopLevelImpl` (source lines 96-98):
`for (i < ancestors.length) ancestorMetadata[i] = DOMEventMetadata.getPooled(false)`,
counting `k` remaining iterations with `i` the current index. -/
def fillMetaAux : Nat → Nat → List (Option Bool) → List (Option Bool) →
    List (Option Bool) × List (Option Bool)
  | 0, _i, md, pool => (md, pool)
  | k + 1, i, md, pool =>
    let ap := metaAcquire pool false
    fillMetaAux k (i + 1) (jsSet md i ap.1) ap.2

/-- The related-target reconciliation loop of `handleTopLevelImpl` (source
lines 110-121): `for (let i = -1; i < relatedAncestors.length - 1; i++)`,
comparing `roots[roots.length - i]` with
`relatedRoots[relatedRoots.length - i]` and, when the former is absent or
they differ, appending metadata flagged `isRelatedTarget = true` at index
`ancestors.length` and pushing `relatedAncestors[relatedAncestors.length - i]`.
`k` counts the remaining iterations (the loop body runs exactly
`relatedAncestors.length` times since only `ancestors` grows). -/
def reconcileAux (roots relRoots : List Nat) (relAnc : List (Option Nat)) :
    Nat → Int → List (Option Nat) → List (Option Bool) → List (Option Bool) →
    List (Option Nat) × List (Option Bool) × List (Option Bool)
  | 0, _i, anc, md, pool => (anc, md, pool)
  | k + 1, i, anc, md, pool =>
    let root := jsIdx roots ((roots.length : Int) - i)
    let relatedRoot := jsIdx relRoots ((relRoots.length : Int) - i)
    if root = none ∨ root ≠ relatedRoot then
      let ap := metaAcquire pool true
      let md1 := jsSet md anc.length ap.1
      let anc1 := anc ++ [jsIdxD relAnc ((relAnc.length : Int) - i)]
      reconcileAux roots relRoots relAnc k (i + 1) anc1 md1 ap.2
    else
      reconcileAux roots relRoots relAnc k (i + 1) anc md pool

/-- The chain-building part of `handleTopLevelImpl` (source lines 88-122):
resolve the event target to its closest instance, collect the primary
ancestors and roots, fill the primary metadata, and — when the event
carries a related target — collect the related chain and run the
reconciliation loop.  Returns
`(ancestors, ancestorMetadata, relatedAncestors, roots, relatedRoots, metaPool)`. -/
def computeChain (env : DomEnv) (fuel : Nat) (pool : List (Option Bool))
    (e : NativeEvent) (anc0 : List (Option Nat)) (roots0 : List Nat)
    (relAnc0 : List (Option Nat)) (relRoots0 : List Nat)
    (md0 : List (Option Bool)) :
    Option (List (Option Nat) × List (Option Bool) × List (Option Nat) ×
      List Nat × List Nat × List (Option Bool)) :=
  match collectAncestors env fuel anc0 roots0
      (env.closestInstance (getEventTarget e)) with
  | none => none
  | some (anc1, roots1) =>
    let fm := fillMetaAux anc1.length 0 md0 pool
    match e.relatedTarget with
    | none => some (anc1, fm.1, relAnc0, roots1, relRoots0, fm.2)
    | some rt =>
      match collectAncestors env fuel relAnc0 relRoots0
          (env.closestInstance rt) with
      | none => none
      | some (relAnc1, relRoots1) =>
        let rc := reconcileAux roots1 relRoots1 relAnc1 relAnc1.length (-1)
          anc1 fm.1 fm.2
        some (rc.1, rc.2.1, relAnc1, roots1, relRoots1, rc.2.2)

/-- The chain computation as `dispatchEvent` invokes it: on a freshly
acquired bookkeeping record all working lists start empty (the metadata
pool contents do not influence the chain, only the returned pool, so it is
fixed empty here). -/
def runChain (env : DomEnv) (fuel : Nat) (e : NativeEvent) :
    Option (List (Option Nat) × List (Option Bool) × List (Option Nat) ×
      List Nat × List Nat × List (Option Bool)) :=
  computeChain env fuel [] e [] [] [] [] []

/-- The `bookKeeping.ancestors` list as the handler-invocation loop sees it. -/
def chainAncestors (env : DomEnv) (fuel : Nat) (e : NativeEvent) :
    Option (List (Option Nat)) :=
  (runChain env fuel e).map (fun r => r.1)

/-- The `bookKeeping.ancestorMetadata` list (each entry the
`isRelatedTarget` field of the pooled metadata object) as the
handler-invocation loop sees it. -/
def chainMetadata (env : DomEnv) (fuel : Nat) (e : NativeEvent) :
    Option (List (Option Bool)) :=
  (runChain env fuel e).map (fun r => r.2.1)

/-- The pooled `TopLevelCallbackBookKeeping` record (source lines 35-43):
event type and native event (nulled by the destructor, hence `Option`) and
the five working lists. -/
structure BookKeeping where
  topLevelType : Option Nat
  nativeEvent : Option NativeEvent
  ancestors : List (Option Nat)
  ancestorMetadata : List (Option Bool)
  relatedAncestors : List (Option Nat)
  roots : List Nat
  relatedRoots : List Nat
deriving DecidableEq

/-- A bookkeeping record right after its destructor ran (source lines
45-56): both fields nulled, all five lists truncated to length 0. -/
def resetBookKeeping : BookKeeping :=
  ⟨none, none, [], [], [], [], []⟩

/-- A bookkeeping record as the constructor initialises it (source lines
35-43): fields set from the two pool arguments, all lists empty. -/
def freshBookKeeping (t : Nat) (e : NativeEvent) : BookKeeping :=
  ⟨some t, some e, [], [], [], [], []⟩

/-- Modelled from the spec: `TopLevelCallbackBookKeeping.getPooled(t, e)`
through the external PooledClass two-argument pool (spec section 3,
DispatchRecord): acquire reuses a free record or constructs a fresh one;
the constructor runs either way, so the record always comes back with the
two fields set and the lists empty. -/
def bkAcquire (pool : List BookKeeping) (t : Nat) (e : NativeEvent) :
    BookKeeping × List BookKeeping :=
  match pool with
  | [] => (freshBookKeeping t e, [])
  | _ :: rest => (freshBookKeeping t e, rest)

/-- `TopLevelCallbackBookKeeping.destructor` (source lines 45-56): null the
two fields, truncate `ancestors`, release every pooled metadata object the
record holds back into the metadata free list (each release nulls the
object's field before returning it, hence the `none` entries), then
truncate the remaining lists — in particular `ancestorMetadata` is
truncated only after its entries were released. -/
def bkDestructor (bk : BookKeeping) (metaPool : List (Option Bool)) :
    BookKeeping × List (Option Bool) :=
  (resetBookKeeping,
    bk.ancestorMetadata.foldl (fun p _m => (none : Option Bool) :: p) metaPool)

/-- One event of the observable dispatch timeline: entering and leaving the
batched-update scope, and one externally visible handler invocation with
the argument tuple of source lines 126-132. -/
inductive TraceEv where
  | batchStart : TraceEv
  | invoke (topLevelType : Option Nat) (inst : Option Nat) (e : NativeEvent)
      (target : Nat) (metadata : Option Bool) : TraceEv
  | batchEnd : TraceEv
deriving DecidableEq

/-- The externally registered per-ancestor callback
(`ReactEventListener._handleTopLevel`); a handler failure is an `Except`
error, which the dispatcher must not swallow. -/
abbrev Handler :=
  Option Nat → Option Nat → NativeEvent → Nat → Option Bool → Except Nat Unit

/-- The handler-invocation loop of `handleTopLevelImpl` (source lines
124-133): invoke the handler once per ancestor, in list order, passing
`(topLevelType, ancestor, nativeEvent, getEventTarget(nativeEvent),
ancestorMetadata[i])`; a raised error aborts the remaining invocations. -/
def invokeLoop (handler : Handler) (t : Option Nat) (e : NativeEvent)
    (md : List (Option Bool)) :
    List (Option Nat) → Nat → Except Nat Unit × List TraceEv
  | [], _i => (Except.ok (), [])
  | inst :: rest, i =>
    match handler t inst e (getEventTarget e) (jsIdxD md (i : Int)) with
    | Except.ok _ =>
      let r := invokeLoop handler t e md rest (i + 1)
      (r.1, TraceEv.invoke t inst e (getEventTarget e) (jsIdxD md (i : Int)) :: r.2)
    | Except.error err =>
      (Except.error err,
        [TraceEv.invoke t inst e (getEventTarget e) (jsIdxD md (i : Int))])

/-- `handleTopLevelImpl(bookKeeping)` (source lines 83-134): build the full
ancestor chain, then run the handler loop.  Returns the handler outcome,
the record as the loop left it, the metadata pool and the invocation
trace; `none` when the fuel ran out (or the record's event was nulled,
which the source would crash on). -/
def handleTopLevelImpl (env : DomEnv) (fuel : Nat) (handler : Handler)
    (pool : List (Option Bool)) (bk : BookKeeping) :
    Option (Except Nat Unit × BookKeeping × List (Option Bool) × List TraceEv) :=
  match bk.nativeEvent with
  | none => none
  | some e =>
    match computeChain env fuel pool e bk.ancestors bk.roots
        bk.relatedAncestors bk.relatedRoots bk.ancestorMetadata with
    | none => none
    | some (anc, md, relAnc, roots, relRoots, pool1) =>
      let r := invokeLoop handler bk.topLevelType e md anc 0
      some (r.1,
        ⟨bk.topLevelType, bk.nativeEvent, anc, md, relAnc, roots, relRoots⟩,
        pool1, r.2)

/-- The engine state visible across dispatches: the `_enabled` flag and the
two object pools. -/
structure EngineState where
  enabled : Bool
  metaPool : List (Option Bool)
  bkPool : List BookKeeping
deriving DecidableEq

/-- The state at module load: `_enabled: true` (source line 142) and empty
pools. -/
def initialEngineState : EngineState :=
  ⟨true, [], []⟩

/-- A JavaScript value, as far as boolean coercion is concerned. -/
inductive JSVal where
  | vNull : JSVal
  | vUndefined : JSVal
  | vBool (b : Bool) : JSVal
  | vNum (n : Int) : JSVal
  | vStr (s : String) : JSVal
  | vObj (id : Nat) : JSVal
deriving DecidableEq

/-- JS boolean coercion (`!!x`): null, undefined, false, 0 and the empty
string are falsy, everything else modelled here is truthy. -/
def truthy : JSVal → Bool
  | JSVal.vNull => false
  | JSVal.vUndefined => false
  | JSVal.vBool b => b
  | JSVal.vNum n => decide (n ≠ 0)
  | JSVal.vStr s => decide (s ≠ "")
  | JSVal.vObj _ => true

/-- `ReactEventListener.setEnabled` (source lines 151-153): store the
boolean coercion of the argument. -/
def setEnabled (st : EngineState) (x : JSVal) : EngineState :=
  ⟨truthy x, st.metaPool, st.bkPool⟩

/-- `ReactEventListener.isEnabled` (source lines 155-157). -/
def isEnabled (st : EngineState) : Bool :=
  st.enabled

/-- `ReactEventListener.dispatchEvent` (source lines 209-225): drop the
event when dispatch is disabled; otherwise acquire a bookkeeping record,
run `handleTopLevelImpl` inside the batched-update scope
(`ReactUpdates.batchedUpdates`, modelled from the spec as the
batchStart/batchEnd trace markers around the handler invocations), and
release the record in the `finally` block on both the normal and the
failing path. -/
def dispatchEvent (env : DomEnv) (fuel : Nat) (handler : Handler)
    (st : EngineState) (t : Nat) (e : NativeEvent) :
    Option (Except Nat Unit × EngineState × List TraceEv) :=
  if st.enabled = false then
    some (Except.ok (), st, [])
  else
    match handleTopLevelImpl env fuel handler st.metaPool
        (bkAcquire st.bkPool t e).1 with
    | none => none
    | some r =>
      some (r.1,
        ⟨st.enabled, (bkDestructor r.2.1 r.2.2.1).2,
          (bkDestructor r.2.1 r.2.2.1).1 :: (bkAcquire st.bkPool t e).2⟩,
        TraceEv.batchStart :: r.2.2.2 ++ [TraceEv.batchEnd])

/-- Bubble or capture phase of a native listener registration. -/
inductive Phase where
  | bubble : Phase
  | capture : Phase
deriving DecidableEq

/-- A native listener registration: the element and event name it was
attached with, its phase, and the topLevelType the source bound into the
forwarding callback (`ReactEventListener.dispatchEvent.bind(null, topLevelType)`,
source lines 175-179 and 197-201). -/
structure ListenerRegistration where
  element : Nat
  eventName : Nat
  phase : Phase
  boundTopLevelType : Nat
deriving DecidableEq

/-- Modelled from the spec: `EventListener.listen` / `EventListener.capture`
attach a native listener on an element in the given phase and hand back the
registration as the removable handle (spec sections 4.5 and 6). -/
def listen (ls : List ListenerRegistration) (el name : Nat) (ph : Phase)
    (t : Nat) : List ListenerRegistration × ListenerRegistration :=
  (⟨el, name, ph, t⟩ :: ls, ⟨el, name, ph, t⟩)

/-- `ReactEventListener.trapBubbledEvent` (source lines 170-180): absent
element is a no-op returning null, otherwise attach a bubble-phase listener
forwarding to `dispatchEvent` bound with the given topLevelType. -/
def trapBubbledEvent (ls : List ListenerRegistration) (t name : Nat)
    (handle : Option Nat) :
    List ListenerRegistration × Option ListenerRegistration :=
  match handle with
  | none => (ls, none)
  | some el =>
    let r := listen ls el name Phase.bubble t
    (r.1, some r.2)

/-- `ReactEventListener.trapCapturedEvent` (source lines 192-202): same as
`trapBubbledEvent` but in the capture phase. -/
def trapCapturedEvent (ls : List ListenerRegistration) (t name : Nat)
    (handle : Option Nat) :
    List ListenerRegistration × Option ListenerRegistration :=
  match handle with
  | none => (ls, none)
  | some el =>
    let r := listen ls el name Phase.capture t
    (r.1, some r.2)

/-- The sole operation of a returned handle: remove that native listener. -/
def removeListenerHandle (ls : List ListenerRegistration)
    (r : ListenerRegistration) : List ListenerRegistration :=
  ls.erase r

/-- Running the callback the trap registration bound: it forwards the
native event to `dispatchEvent` with the stored topLevelType. -/
def runTrap (env : DomEnv) (fuel : Nat) (handler : Handler)
    (r : ListenerRegistration) (st : EngineState) (e : NativeEvent) :
    Option (Except Nat Unit × EngineState × List TraceEv) :=
  dispatchEvent env fuel handler st r.boundTopLevelType e

/-- A document with two separate (non-nested) single-instance roots: tree A
is instance 10 mounted at root node 1, tree B is instance 20 mounted at
root node 2, both containers children of document node 0 (which owns no
instance).  Physical node 5 belongs to instance 10, node 6 to instance 20. -/
def envA : DomEnv :=
  ⟨fun _ => none,
   fun i => if i = 10 then 1 else if i = 20 then 2 else 0,
   fun n => if n = 1 then some 0 else if n = 2 then some 0 else none,
   fun n => if n = 5 then some 10 else if n = 6 then some 20 else none⟩

/-- An event on `envA`: target node 5 (instance 10 in root 1), related
target node 6 (instance 20 in root 2). -/
def evA : NativeEvent :=
  ⟨5, some 6⟩

/-- A document with one single root: instance 10 is the outermost instance
mounted at root node 1, instance 12 is a child of 10 in the same tree.
Physical node 5 belongs to instance 10 and node 7 to instance 12, so a
target and a related target resolving to nodes 5 and 7 share root 1. -/
def envB : DomEnv :=
  ⟨fun i => if i = 12 then some 10 else none,
   fun i => if i = 10 then 1 else 0,
   fun n => if n = 1 then some 0 else none,
   fun n => if n = 5 then some 10 else if n = 7 then some 12 else none⟩

/-- An event on `envB`: target node 5 (instance 10) with related target
node 7 (instance 12), both in the single root 1. -/
def evB : NativeEvent :=
  ⟨5, some 7⟩

/-- Two nested logical trees: the inner tree has leaf instance 30 under
outermost instance 31, mounted at root node 3; root 3's physical parent is
node 4, owned by instance 40 of the outer tree, whose outermost instance 41
is mounted at root node 5; root 5's physical parent 9 owns no instance.
Physical node 8 belongs to leaf instance 30. -/
def envC4 : DomEnv :=
  ⟨fun i => if i = 30 then some 31 else if i = 40 then some 41 else none,
   fun i => if i = 31 then 3 else if i = 41 then 5 else 0,
   fun n => if n = 3 then some 4 else if n = 5 then some 9 else none,
   fun n => if n = 4 then some 40 else if n = 8 then some 30 else none⟩

/-- A handler that always succeeds. -/
def okHandler : Handler :=
  fun _ _ _ _ _ => Except.ok ()

/-- A handler that raises on its first invocation. -/
def errHandler : Handler :=
  fun _ _ _ _ _ => Except.error 7

/-- A JS indexed assignment exactly at the current length appends. -/
theorem jsSet_at_length {α : Type} (l : List (Option α)) (v : Option α) :
    jsSet l l.length v = l ++ [v] := by
  simp [jsSet]

/-- The metadata fill loop writes at successive indices starting at the
current length, so it appends one entry per iteration. -/
theorem fillMetaAux_fst_length :
    ∀ (k i : Nat) (md pool : List (Option Bool)), md.length = i →
      ((fillMetaAux k i md pool).1).length = i + k := by
  intro k
  induction k with
  | zero =>
    intro i md pool h
    simpa [fillMetaAux] using h
  | succ k ih =>
    intro i md pool h
    subst h
    show ((fillMetaAux k (md.length + 1)
      (jsSet md md.length (metaAcquire pool false).1) (metaAcquire pool false).2).1).length = _
    rw [jsSet_at_length]
    have := ih (md.length + 1) (md ++ [(metaAcquire pool false).1])
      (metaAcquire pool false).2 (by simp)
    rw [this]
    omega

/-- Each iteration of the reconciliation loop either leaves both lists
unchanged or appends one metadata entry (at index `ancestors.length`) and
one ancestor, so it preserves `ancestors.length = ancestorMetadata.length`. -/
theorem reconcileAux_len :
    ∀ (k : Nat) (roots relRoots : List Nat) (relAnc : List (Option Nat))
      (i : Int) (anc : List (Option Nat)) (md pool : List (Option Bool)),
      anc.length = md.length →
      ((reconcileAux roots relRoots relAnc k i anc md pool).1).length =
        ((reconcileAux roots relRoots relAnc k i anc md pool).2.1).length := by
  intro k
  induction k with
  | zero =>
    intro roots relRoots relAnc i anc md pool h
    simpa [reconcileAux] using h
  | succ k ih =>
    intro roots relRoots relAnc i anc md pool h
    show ((reconcileAux roots relRoots relAnc (k + 1) i anc md pool).1).length = _
    rw [reconcileAux]
    split
    · have hset : jsSet md anc.length (metaAcquire pool true).1 =
        md ++ [(metaAcquire pool true).1] := by
        rw [h, jsSet_at_length]
      have := ih roots relRoots relAnc (i + 1)
        (anc ++ [jsIdxD relAnc ((relAnc.length : Int) - i)])
        (md ++ [(metaAcquire pool true).1]) (metaAcquire pool true).2
        (by simp [h])
      simpa [hset] using this
    · exact ih roots relRoots relAnc (i + 1) anc md pool h

/-- Walking the host-parent chain is fuel-monotone: once enough fuel
reaches the outermost instance, more fuel reaches the same one. -/
theorem walkUp_mono (env : DomEnv) :
    ∀ (f f' i o : Nat), f ≤ f' → walkUp env f i = some o →
      walkUp env f' i = some o := by
  intro f
  induction f with
  | zero =>
    intro f' i o _ h
    rw [walkUp] at h
    cases hp : env.hostParent i with
    | some p => rw [hp] at h; exact absurd h (by simp)
    | none =>
      rw [hp] at h
      cases f' with
      | zero => rw [walkUp, hp]; exact h
      | succ g => rw [walkUp, hp]; exact h
  | succ g ih =>
    intro f' i o hle h
    rw [walkUp] at h
    cases hp : env.hostParent i with
    | none =>
      rw [hp] at h
      cases f' with
      | zero => rw [walkUp, hp]; exact h
      | succ g' => rw [walkUp, hp]; exact h
    | some p =>
      rw [hp] at h
      cases f' with
      | zero => omega
      | succ g' =>
        rw [walkUp, hp]
        exact ih g' p o (by omega) h

/-- Releasing one object per metadata entry grows the free list by the
number of entries. -/
theorem foldl_release_length (l : List (Option Bool)) :
    ∀ (p : List (Option Bool)),
      (l.foldl (fun acc _m => (none : Option Bool) :: acc) p).length =
        p.length + l.length := by
  induction l with
  | nil => intro p; simp
  | cons x xs ih =>
    intro p
    show (xs.foldl (fun acc _m => (none : Option Bool) :: acc) (none :: p)).length = _
    rw [ih (none :: p)]
    simp
    omega

/-- Whatever the pool holds, an acquired bookkeeping record is
constructor-initialised. -/
theorem bkAcquire_fst (pool : List BookKeeping) (t : Nat) (e : NativeEvent) :
    (bkAcquire pool t e).1 = freshBookKeeping t e := by
  cases pool <;> rfl

/-- When the handler never raises, the invocation loop succeeds and its
trace is exactly one invocation per ancestor, in list order, with the
metadata entry at the matching index. -/
theorem invokeLoop_ok (handler : Handler) (t : Option Nat) (e : NativeEvent)
    (md : List (Option Bool))
    (hok : ∀ a b c d m, handler a b c d m = Except.ok ()) :
    ∀ (anc : List (Option Nat)) (i : Nat),
      invokeLoop handler t e md anc i =
        (Except.ok (), (List.enumFrom i anc).map
          (fun p => TraceEv.invoke t p.2 e (getEventTarget e)
            (jsIdxD md (p.1 : Int)))) := by
  intro anc
  induction anc with
  | nil =>
    intro i
    simp [invokeLoop, List.enumFrom]
  | cons x xs ih =>
    intro i
    rw [invokeLoop, hok]
    simp [List.enumFrom, ih (i + 1)]

/-- C1: the spec claims every entry of `bookKeeping.ancestors` is non-null
when the handlers are invoked, for every native event.  Evaluating the
embedded chain computation on a configuration whose related target lives in
a second root shows the claim fails on the code: the reconciliation loop
starts at `i = -1`, reads `relatedAncestors[relatedAncestors.length + 1]`
(undefined) and pushes it, so `ancestors` ends as `[some 10, none]` — its
second entry is undefined at handler-invocation time. -/
theorem c1_undefined_ancestor_entry :
    ∃ l, chainAncestors envA 10 evA = some l ∧ none ∈ l :=
  ⟨[some 10, none], rfl, by decide⟩

/-- C2: the spec claims that when the related target shares the primary
target's single root, reconciliation appends zero related-only ancestors.
On the code, the primary collection yields one ancestor (`[some 10]`, root
list `[1]`), the related chain yields the same root, yet the final
ancestors list is `[some 10, none]`: the loop's first iteration compares
two out-of-range root reads (both undefined), `!root` is true, and one
(undefined) related-only ancestor is appended. -/
theorem c2_sameRoot_spurious_append :
    collectAncestors envB 10 [] [] (envB.closestInstance 5) =
      some ([some 10], [1]) ∧
    chainAncestors envB 10 evB = some [some 10, none] :=
  ⟨rfl, rfl⟩

/-- C3: for a related target in a different, non-nested root the spec
claims reconciliation appends exactly one related-only ancestor, namely the
related target's outermost instance, flagged `isRelatedTarget = true`.  On
the code exactly one entry is appended and its metadata is flagged true,
but the appended ancestor is undefined (`none`), not the related target's
outermost instance 20 (node 6 resolves to instance 20, which has no host
parent): the push reads `relatedAncestors[relatedAncestors.length + 1]`. -/
theorem c3_relatedOnly_append_is_undefined :
    chainAncestors envA 10 evA = some [some 10, none] ∧
    chainMetadata envA 10 evA = some [some false, some true] ∧
    envA.closestInstance 6 = some 20 ∧
    envA.hostParent 20 = none :=
  ⟨rfl, rfl, rfl, rfl⟩

/-- C4 counterexample: the claim says the first of the two collected
ancestors is the inner tree's outermost instance.  Collecting from leaf
instance 30 of the nested configuration produces `[some 30, some 40]`:
the first entry is the leaf 30 itself, while the inner tree's outermost
instance (the end of 30's host-parent walk) is 31 ≠ 30. -/
theorem c4_counterexample :
    collectAncestors envC4 10 [] [] (some 30) =
      some ([some 30, some 40], [3, 5]) ∧
    walkUp envC4 10 30 = some 31 ∧ (31 : Nat) ≠ 30 :=
  ⟨rfl, rfl, by decide⟩

/-- C6: a dispatch while disabled invokes the handler zero times (empty
trace), acquires and releases nothing, and leaves the whole engine state —
both pools included — unchanged. -/
theorem c6_disabled_noop :
    ∀ (env : DomEnv) (fuel : Nat) (handler : Handler) (st : EngineState)
      (t : Nat) (e : NativeEvent), st.enabled = false →
      dispatchEvent env fuel handler st t e = some (Except.ok (), st, []) := by
  intro env fuel handler st t e h
  simp [dispatchEvent, h]

/-- Witness for C6 at a concrete disabled state. -/
theorem c6_disabled_noop_witness :
    dispatchEvent envA 10 okHandler ⟨false, [], []⟩ 3 evA =
      some (Except.ok (), ⟨false, [], []⟩, []) :=
  c6_disabled_noop envA 10 okHandler ⟨false, [], []⟩ 3 evA rfl

/-- C9: trapping with an absent element is a no-op returning null and
registering nothing; with a present element it attaches a listener in the
bubble (respectively capture) phase for the given event name, whose bound
callback forwards any native event to `dispatchEvent` with the given
topLevelType, and the returned handle's sole operation removes exactly that
registration. -/
theorem c9_trap_registration :
    (∀ (ls : List ListenerRegistration) (t n : Nat),
      trapBubbledEvent ls t n none = (ls, none) ∧
      trapCapturedEvent ls t n none = (ls, none)) ∧
    (∀ (ls : List ListenerRegistration) (t n el : Nat),
      ∃ r, trapBubbledEvent ls t n (some el) = (r :: ls, some r) ∧
        r.phase = Phase.bubble ∧ r.element = el ∧ r.eventName = n ∧
        r.boundTopLevelType = t ∧
        removeListenerHandle (r :: ls) r = ls ∧
        ∀ (env : DomEnv) (fuel : Nat) (handler : Handler) (st : EngineState)
          (e : NativeEvent), runTrap env fuel handler r st e =
            dispatchEvent env fuel handler st t e) ∧
    (∀ (ls : List ListenerRegistration) (t n el : Nat),
      ∃ r, trapCapturedEvent ls t n (some el) = (r :: ls, some r) ∧
        r.phase = Phase.capture ∧ r.element = el ∧ r.eventName = n ∧
        r.boundTopLevelType = t ∧
        removeListenerHandle (r :: ls) r = ls ∧
        ∀ (env : DomEnv) (fuel : Nat) (handler : Handler) (st : EngineState)
          (e : NativeEvent), runTrap env fuel handler r st e =
            dispatchEvent env fuel handler st t e) := by
  refine ⟨fun ls t n => ⟨rfl, rfl⟩,
    fun ls t n el => ⟨⟨el, n, Phase.bubble, t⟩, rfl, rfl, rfl, rfl, rfl, ?_,
      fun _ _ _ _ _ => rfl⟩,
    fun ls t n el => ⟨⟨el, n, Phase.capture, t⟩, rfl, rfl, rfl, rfl, rfl, ?_,
      fun _ _ _ _ _ => rfl⟩⟩
  · simp [removeListenerHandle]
  · simp [removeListenerHandle]

/-- C10: dispatch is enabled by default (the flag is the literal `true`
before any `setEnabled` call) and `setEnabled(x)` stores the boolean
coercion `!!x` of its argument, so `isEnabled` always returns a boolean. -/
theorem c10_default_enabled_and_coercion :
    isEnabled initialEngineState = true ∧
    ∀ (st : EngineState) (x : JSVal), isEnabled (setEnabled st x) = truthy x :=
  ⟨rfl, fun _ _ => rfl⟩

/-- C4 as amended: for two nested logical trees, collecting from a leaf of
the inner tree produces exactly two ancestors — the starting leaf instance
first (not the inner tree's outermost instance, which only guides the walk
to the inner root), then the outer tree's owning instance — and exactly
two roots, innermost-first.  The hypotheses spell out the nested shape:
the leaf's host-parent walk ends at the inner outermost instance `oIn`
mounted at root `rIn`, whose physical parent node `d` is owned by the outer
instance `aOut`, whose own walk ends at `oOut` mounted at root `rOut`, with
no enclosing instance above `rOut`. -/
theorem c4_amended :
    ∀ (env : DomEnv) (f leaf oIn aOut oOut rIn rOut d : Nat),
      walkUp env f leaf = some oIn →
      env.nodeFromInstance oIn = rIn →
      env.parentNode rIn = some d →
      env.closestInstance d = some aOut →
      walkUp env f aOut = some oOut →
      env.nodeFromInstance oOut = rOut →
      (env.parentNode rOut).bind env.closestInstance = none →
      collectAncestors env (f + 2) [] [] (some leaf) =
        some ([some leaf, some aOut], [rIn, rOut]) := by
  intro env f leaf oIn aOut oOut rIn rOut d h1 h2 h3 h4 h5 h6 h7
  show collectLoop env (f + 2) [] [] leaf = _
  have e2 : f + 2 = (f + 1) + 1 := rfl
  rw [e2, collectLoop, walkUp_mono env f (f + 1) leaf oIn (by omega) h1]
  dsimp only
  rw [h2, h3]
  simp only [Option.some_bind]
  rw [h4]
  dsimp only
  rw [collectLoop, h5]
  dsimp only
  rw [h6, h7]
  simp

/-- Witness for C4 at the concrete nested configuration `envC4`. -/
theorem c4_amended_witness :
    collectAncestors envC4 5 [] [] (some 30) =
      some ([some 30, some 40], [3, 5]) :=
  c4_amended envC4 3 30 31 40 41 3 5 4 rfl rfl rfl rfl rfl rfl rfl

/-- C7: after the chain computation of a dispatch cycle completes (primary
collection, metadata fill and — when a related target exists — the
reconciliation loop), `ancestors.length = ancestorMetadata.length`; and
every suffix of the reconciliation loop preserves that equality, so it
holds across each related-only append. -/
theorem c7_length_invariant :
    (∀ (env : DomEnv) (fuel : Nat) (e : NativeEvent)
      (anc : List (Option Nat)) (md : List (Option Bool))
      (relAnc : List (Option Nat)) (roots relRoots : List Nat)
      (pool : List (Option Bool)),
      runChain env fuel e = some (anc, md, relAnc, roots, relRoots, pool) →
      anc.length = md.length) ∧
    (∀ (roots relRoots : List Nat) (relAnc : List (Option Nat)) (k : Nat)
      (i : Int) (anc : List (Option Nat)) (md pool : List (Option Bool)),
      anc.length = md.length →
      ((reconcileAux roots relRoots relAnc k i anc md pool).1).length =
        ((reconcileAux roots relRoots relAnc k i anc md pool).2.1).length) := by
  constructor
  · intro env fuel e anc md relAnc roots relRoots pool h
    unfold runChain computeChain at h
    cases hc : collectAncestors env fuel [] []
        (env.closestInstance (getEventTarget e)) with
    | none =>
      rw [hc] at h
      exact absurd h (by simp)
    | some pr =>
      obtain ⟨anc1, roots1⟩ := pr
      rw [hc] at h
      dsimp only at h
      have hfill : ((fillMetaAux anc1.length 0 [] []).1).length = anc1.length := by
        have := fillMetaAux_fst_length anc1.length 0 [] [] rfl
        omega
      cases hr : e.relatedTarget with
      | none =>
        rw [hr] at h
        simp only [Option.some.injEq, Prod.mk.injEq] at h
        obtain ⟨h1, h2, -⟩ := h
        rw [← h1, ← h2]
        exact hfill.symm
      | some rt =>
        rw [hr] at h
        dsimp only at h
        cases hc2 : collectAncestors env fuel [] [] (env.closestInstance rt) with
        | none =>
          rw [hc2] at h
          exact absurd h (by simp)
        | some pr2 =>
          obtain ⟨relAnc1, relRoots1⟩ := pr2
          rw [hc2] at h
          simp only [Option.some.injEq, Prod.mk.injEq] at h
          obtain ⟨h1, h2, -⟩ := h
          rw [← h1, ← h2]
          exact reconcileAux_len relAnc1.length roots1 relRoots1 relAnc1 (-1)
            anc1 (fillMetaAux anc1.length 0 [] []).1
            (fillMetaAux anc1.length 0 [] []).2 hfill.symm
  · intro roots relRoots relAnc k i anc md pool h
    exact reconcileAux_len k roots relRoots relAnc i anc md pool h

/-- Witness for C7 at a concrete dispatch chain (the `envA` configuration)
and at one concrete reconciliation state. -/
theorem c7_length_invariant_witness :
    (([some 10, none] : List (Option Nat)).length =
      ([some false, some true] : List (Option Bool)).length) ∧
    ((reconcileAux [1] [2] [some 20] 1 (-1) [some 10] [some false] []).1.length =
      ((reconcileAux [1] [2] [some 20] 1 (-1) [some 10] [some false] []).2.1).length) :=
  ⟨c7_length_invariant.1 envA 10 evA [some 10, none] [some false, some true]
      [some 20] [1] [2] [] rfl,
    c7_length_invariant.2 [1] [2] [some 20] 1 (-1) [some 10] [some false] [] rfl⟩

/-- C5: when an invoked handler raises, the dispatch still releases the
acquired bookkeeping record and every pooled metadata object it holds —
the metadata pool grows by exactly the record's metadata count, the
bookkeeping pool regains one record whose fields are nulled and whose lists
are truncated (the metadata having been released before the truncation) —
and the handler's error is then returned to the caller of `dispatchEvent`
rather than being swallowed. -/
theorem c5_error_cleanup :
    ∀ (env : DomEnv) (fuel : Nat) (handler : Handler) (st : EngineState)
      (t : Nat) (e : NativeEvent) (err : Nat) (bk1 : BookKeeping)
      (mp1 : List (Option Bool)) (tr : List TraceEv),
      st.enabled = true →
      handleTopLevelImpl env fuel handler st.metaPool
        (bkAcquire st.bkPool t e).1 = some (Except.error err, bk1, mp1, tr) →
      ∃ st' tr', dispatchEvent env fuel handler st t e =
          some (Except.error err, st', tr') ∧
        st'.metaPool.length = mp1.length + bk1.ancestorMetadata.length ∧
        st'.bkPool.length = (bkAcquire st.bkPool t e).2.length + 1 ∧
        st'.bkPool.head? = some resetBookKeeping := by
  intro env fuel handler st t e err bk1 mp1 tr hen h
  refine ⟨⟨st.enabled, (bkDestructor bk1 mp1).2,
      (bkDestructor bk1 mp1).1 :: (bkAcquire st.bkPool t e).2⟩,
    TraceEv.batchStart :: tr ++ [TraceEv.batchEnd], ?_, ?_, ?_, ?_⟩
  · unfold dispatchEvent
    rw [if_neg (by simp [hen]), h]
  · exact foldl_release_length bk1.ancestorMetadata mp1
  · simp
  · rfl

/-- Witness for C5: a dispatch on `envA` whose handler raises on its first
invocation; the record held two metadata objects and both return to the
(initially empty) metadata pool. -/
theorem c5_error_cleanup_witness :
    ∃ st' tr', dispatchEvent envA 10 errHandler initialEngineState 3 evA =
        some (Except.error 7, st', tr') ∧
      st'.metaPool.length = 2 ∧
      st'.bkPool.length = 1 ∧
      st'.bkPool.head? = some resetBookKeeping :=
  c5_error_cleanup envA 10 errHandler initialEngineState 3 evA 7
    ⟨some 3, some evA, [some 10, none], [some false, some true], [some 20],
      [1], [2]⟩
    [] [TraceEv.invoke (some 3) (some 10) evA 5 (some false)] rfl rfl

/-- C8: with dispatch enabled and a handler that never raises, the whole
cycle first computes the full ancestor chain (primary collection plus the
related-target reconciliation), and only then invokes the registered
handler exactly once per entry of the final ancestors list, in list order,
with arguments `(topLevelType, ancestor, nativeEvent,
getEventTarget(nativeEvent), ancestorMetadata[i])`, all between the
batch-start and batch-end of a single batched-update scope. -/
theorem c8_dispatch_order :
    ∀ (env : DomEnv) (fuel : Nat) (handler : Handler) (st : EngineState)
      (t : Nat) (e : NativeEvent) (anc : List (Option Nat))
      (md : List (Option Bool)) (relAnc : List (Option Nat))
      (roots relRoots : List Nat) (pool1 : List (Option Bool)),
      st.enabled = true →
      (∀ a b c d m, handler a b c d m = Except.ok ()) →
      computeChain env fuel st.metaPool e [] [] [] [] [] =
        some (anc, md, relAnc, roots, relRoots, pool1) →
      ∃ st', dispatchEvent env fuel handler st t e =
        some (Except.ok (), st',
          TraceEv.batchStart ::
            ((List.enum anc).map (fun p => TraceEv.invoke (some t) p.2 e
              (getEventTarget e) (jsIdxD md (p.1 : Int)))) ++
            [TraceEv.batchEnd]) := by
  intro env fuel handler st t e anc md relAnc roots relRoots pool1 hen hok hchain
  have himpl : handleTopLevelImpl env fuel handler st.metaPool
      (bkAcquire st.bkPool t e).1 =
      some (Except.ok (),
        ⟨some t, some e, anc, md, relAnc, roots, relRoots⟩, pool1,
        (List.enum anc).map (fun p => TraceEv.invoke (some t) p.2 e
          (getEventTarget e) (jsIdxD md (p.1 : Int)))) := by
    rw [bkAcquire_fst]
    unfold handleTopLevelImpl freshBookKeeping
    dsimp only
    rw [hchain]
    dsimp only
    rw [invokeLoop_ok handler (some t) e md hok anc 0]
    rfl
  refine ⟨⟨st.enabled,
      (bkDestructor ⟨some t, some e, anc, md, relAnc, roots, relRoots⟩ pool1).2,
      (bkDestructor ⟨some t, some e, anc, md, relAnc, roots, relRoots⟩ pool1).1 ::
        (bkAcquire st.bkPool t e).2⟩, ?_⟩
  unfold dispatchEvent
  rw [if_neg (by simp [hen]), himpl]

/-- Witness for C8 on the concrete `envA` dispatch with an always-ok
handler. -/
theorem c8_dispatch_order_witness :
    ∃ st', dispatchEvent envA 10 okHandler initialEngineState 3 evA =
      some (Except.ok (), st',
        TraceEv.batchStart ::
          ((List.enum [some (10 : Nat), none]).map
            (fun p => TraceEv.invoke (some 3) p.2 evA (getEventTarget evA)
              (jsIdxD [some false, some true] (p.1 : Int)))) ++
          [TraceEv.batchEnd]) :=
  c8_dispatch_order envA 10 okHandler initialEngineState 3 evA
    [some 10, none] [some false, some true] [some 20] [1] [2] [] rfl
    (fun _ _ _ _ _ => rfl) rfl

end REL
